import Mathlib

/-!
Verification of the habitat client-side ingestion stack against its
specification.  The development shallowly embeds the relevant parts of the
repository:

* the `Uploader.payload_telemetry` conflict-merge loop and its content
  addressing (the uploader module itself is absent from the source tree; it is
  modelled from the specification, with the numeric constants pinned by the
  repository's test-suite `habitat/tests/test_uploader.py`),
* the UKHAS frame extractor state machine (likewise modelled from the
  specification, pinned by the tests),
* the background uploader worker command loop (likewise),
* `habitat/sensors/stdtelem.py` (`coordinate`), and
* `habitat/views/utils.py` (`must_be_admin`, `validate_doc`).

Bytes are `Nat` values below 256, machine words are `Nat` reduced modulo
`2 ^ 32`, Python floats are modelled as exact rationals (the inputs exercised
by the claims are exactly representable and far from any rounding tie), and
Python exceptions are modelled with an explicit error type in `Except`.
-/

namespace Habitat

/-! ### SHA-256 over byte lists

Executable SHA-256 (FIPS 180-4), used by the uploader model for the content
address of payload telemetry documents.  Words are `Nat` taken modulo `2^32`.
All recursions are structural so that concrete digests reduce inside the
kernel. -/

/-- Reduce a `Nat` to a 32-bit word. -/
def w32 (n : Nat) : Nat := n % 4294967296

/-- Right rotation of a 32-bit word by `n` places. -/
def rotr (n x : Nat) : Nat := w32 ((x >>> n) ||| (x <<< (32 - n)))

/-- SHA-256 round constants (fractional parts of cube roots of the first 64
primes), written in decimal. -/
def shaK : List Nat := [
  1116352408, 1899447441, 3049323471, 3921009573, 961987163, 1508970993,
  2453635748, 2870763221, 3624381080, 310598401, 607225278, 1426881987,
  1925078388, 2162078206, 2614888103, 3248222580, 3835390401, 4022224774,
  264347078, 604807628, 770255983, 1249150122, 1555081692, 1996064986,
  2554220882, 2821834349, 2952996808, 3210313671, 3336571891, 3584528711,
  113926993, 338241895, 666307205, 773529912, 1294757372, 1396182291,
  1695183700, 1986661051, 2177026350, 2456956037, 2730485921, 2820302411,
  3259730800, 3345764771, 3516065817, 3600352804, 4094571909, 275423344,
  430227734, 506948616, 659060556, 883997877, 958139571, 1322822218,
  1537002063, 1747873779, 1955562222, 2024104815, 2227730452, 2361852424,
  2428436474, 2756734187, 3204031479, 3329325298]

/-- Working state of the SHA-256 compression function. -/
structure Hash8 where
  a : Nat
  b : Nat
  c : Nat
  d : Nat
  e : Nat
  f : Nat
  g : Nat
  h : Nat
deriving Repr, DecidableEq

/-- SHA-256 initial hash value (fractional parts of square roots of the first
8 primes), written in decimal. -/
def shaH0 : Hash8 :=
  ⟨1779033703, 3144134277, 1013904242, 2773480762,
   1359893119, 2600822924, 528734635, 1541459225⟩

/-- One round of the SHA-256 compression function with round constant `k` and
schedule word `w`. -/
def shaRound (s : Hash8) (kw : Nat × Nat) : Hash8 :=
  let bigS1 := (rotr 6 s.e) ^^^ (rotr 11 s.e) ^^^ (rotr 25 s.e)
  let ch := (s.e &&& s.f) ^^^ ((4294967295 - s.e) &&& s.g)
  let t1 := w32 (s.h + bigS1 + ch + kw.1 + kw.2)
  let bigS0 := (rotr 2 s.a) ^^^ (rotr 13 s.a) ^^^ (rotr 22 s.a)
  let maj := (s.a &&& s.b) ^^^ (s.a &&& s.c) ^^^ (s.b &&& s.c)
  let t2 := w32 (bigS0 + maj)
  ⟨w32 (t1 + t2), s.a, s.b, s.c, w32 (s.d + t1), s.e, s.f, s.g⟩

/-- Extend a 16-word block to the full 64-word message schedule; `n` is the
number of words still to append. -/
def shaExtend : Nat → List Nat → List Nat
  | 0, w => w
  | n + 1, w =>
    let i := w.length
    let x15 := w.getD (i - 15) 0
    let x2 := w.getD (i - 2) 0
    let s0 := (rotr 7 x15) ^^^ (rotr 18 x15) ^^^ (x15 >>> 3)
    let s1 := (rotr 17 x2) ^^^ (rotr 19 x2) ^^^ (x2 >>> 10)
    shaExtend n (w ++ [w32 (w.getD (i - 16) 0 + s0 + w.getD (i - 7) 0 + s1)])

/-- Compress one 16-word block into the running hash value. -/
def shaBlock (s : Hash8) (block : List Nat) : Hash8 :=
  let t := (List.zip shaK (shaExtend 48 block)).foldl shaRound s
  ⟨w32 (s.a + t.a), w32 (s.b + t.b), w32 (s.c + t.c), w32 (s.d + t.d),
   w32 (s.e + t.e), w32 (s.f + t.f), w32 (s.g + t.g), w32 (s.h + t.h)⟩

/-- Combine big-endian bytes, four at a time, into 32-bit words. -/
def bytesToWords : List Nat → List Nat
  | b0 :: b1 :: b2 :: b3 :: rest =>
    ((b0 <<< 24) ||| (b1 <<< 16) ||| (b2 <<< 8) ||| b3) :: bytesToWords rest
  | _ => []

/-- Split a word list into 16-word blocks (the padded message always has a
multiple of 16 words; a ragged tail would be dropped). -/
def toBlocks : List Nat → List (List Nat)
  | w0 :: w1 :: w2 :: w3 :: w4 :: w5 :: w6 :: w7 ::
    w8 :: w9 :: w10 :: w11 :: w12 :: w13 :: w14 :: w15 :: rest =>
    [w0, w1, w2, w3, w4, w5, w6, w7, w8, w9, w10, w11, w12, w13, w14, w15] ::
      toBlocks rest
  | _ => []

/-- Big-endian 8-byte encoding of a message bit length. -/
def lenBytes (n : Nat) : List Nat :=
  [w32 0 + ((n >>> 56) &&& 255), (n >>> 48) &&& 255, (n >>> 40) &&& 255,
   (n >>> 32) &&& 255, (n >>> 24) &&& 255, (n >>> 16) &&& 255,
   (n >>> 8) &&& 255, n &&& 255]

/-- SHA-256 padding: append `0x80`, zeros to 56 mod 64 bytes, then the bit
length, big-endian. -/
def shaPad (msg : List Nat) : List Nat :=
  msg ++ 0x80 :: List.replicate ((119 - msg.length % 64) % 64) 0 ++
    lenBytes (msg.length * 8)

/-- SHA-256 of a byte list, as the eight-word final hash value. -/
def sha256 (msg : List Nat) : Hash8 :=
  (toBlocks (bytesToWords (shaPad msg))).foldl shaBlock shaH0

/-- Lowercase hexadecimal digit. -/
def hexDigit (n : Nat) : Char :=
  if n < 10 then Char.ofNat (48 + n) else Char.ofNat (87 + n)

/-- Lowercase hexadecimal rendering of a 32-bit word, 8 digits. -/
def wordHex (n : Nat) : List Char :=
  [hexDigit ((n >>> 28) &&& 15), hexDigit ((n >>> 24) &&& 15),
   hexDigit ((n >>> 20) &&& 15), hexDigit ((n >>> 16) &&& 15),
   hexDigit ((n >>> 12) &&& 15), hexDigit ((n >>> 8) &&& 15),
   hexDigit ((n >>> 4) &&& 15), hexDigit (n &&& 15)]

/-- Lowercase hexadecimal SHA-256 digest of a byte list (`hexdigest()`). -/
def sha256hex (msg : List Nat) : String :=
  let s := sha256 msg
  String.mk (wordHex s.a ++ wordHex s.b ++ wordHex s.c ++ wordHex s.d ++
             wordHex s.e ++ wordHex s.f ++ wordHex s.g ++ wordHex s.h)

/-! ### Base64 -/

/-- Standard base64 alphabet character for a 6-bit value. -/
def b64char (n : Nat) : Char :=
  if n < 26 then Char.ofNat (65 + n)
  else if n < 52 then Char.ofNat (97 + (n - 26))
  else if n < 62 then Char.ofNat (48 + (n - 52))
  else if n = 62 then '+'
  else '/'

/-- Standard base64 encoding of a byte list, with `=` padding
(`base64.b64encode`). -/
def b64encodeChars : List Nat → List Char
  | [] => []
  | [b0] =>
    [b64char (b0 >>> 2), b64char ((b0 <<< 4) &&& 63), '=', '=']
  | [b0, b1] =>
    [b64char (b0 >>> 2), b64char (((b0 <<< 4) ||| (b1 >>> 4)) &&& 63),
     b64char ((b1 <<< 2) &&& 63), '=']
  | b0 :: b1 :: b2 :: rest =>
    b64char (b0 >>> 2) :: b64char (((b0 <<< 4) ||| (b1 >>> 4)) &&& 63) ::
      b64char (((b1 <<< 2) ||| (b2 >>> 6)) &&& 63) :: b64char (b2 &&& 63) ::
      b64encodeChars rest

/-- Base64 encoding of a byte list, reinterpreted as a byte list again (the
alphabet is pure ASCII). -/
def b64encode (msg : List Nat) : List Nat :=
  (b64encodeChars msg).map Char.toNat

/-! ### Uploader: payload telemetry conflict-merge loop

Modelled from the spec: `habitat/uploader.py` (class `Uploader`,
`payload_telemetry`) is not part of the source tree; only its test-suite
`habitat/tests/test_uploader.py` is.  The model follows spec §4.4: compute the
content address, build a per-receiver body stamped with `time_uploaded`,
PUT it to the `add_listener` update handler, retry on document conflict with a
refreshed `time_uploaded`, fail with `Unmergeable` on any other error.  Two
constants are pinned by the tests rather than the spec prose:

* the document id is the SHA-256 of the **base64 encoding** of the raw bytes
  (`test_pushes_payload_telemetry_simple` expects the id
  `cf4511bb…` for the string `"asdf blah \x12 binar\x04\x00"`, which is the
  digest of `"YXNkZiBibGFoIBIgYmluYXIEAA=="`, its base64 encoding, and the
  document carries that same base64 string under `data._raw`);
* the attempt budget is **20** (`test_merges_multiple_conflicts` succeeds on
  the 16th attempt after 15 conflicts; `test_gives_up_after_many_conflicts`
  expects exactly 20 conflicted PUTs before `UnmergeableError`).

The document store is abstracted as the list of responses the successive PUT
attempts receive, and wall-clock time as a function from attempt number to the
unix time observed for that attempt. -/

/-- Outcome the document store gives one PUT attempt: success, a document
conflict, or any other error (auth failure, network, validation …). -/
inductive PutResponse
  | success
  | conflict
  | otherError
deriving Repr, DecidableEq

/-- Record of one PUT issued to the update handler: the url it was sent to and
the `time_uploaded` stamped into the body for that attempt. -/
structure PutCall where
  url : String
  timeUploaded : Nat
deriving Repr, DecidableEq

/-- Path of the server-side `add_listener` update handler for a document id. -/
def addListenerUrl (docId : String) : String :=
  "_design/payload_telemetry/_update/add_listener/" ++ docId

/-- Result of an uploader operation: the document id on success, the
`UnmergeableError` exception otherwise. -/
inductive PtlmResult
  | ok (docId : String)
  | unmergeable
deriving Repr, DecidableEq

/-- Conflict-merge loop of `payload_telemetry`.  `attempt` numbers the current
attempt (for the refreshed `time_uploaded`), `budget` is the number of
attempts still allowed, and `responses` holds the responses the store will
give to this and later attempts.  Returns the PUT calls issued and the
outcome.  An exhausted response list behaves as a non-conflict error. -/
def ptlmLoop (docId : String) (times : Nat → Nat) :
    Nat → Nat → List PutResponse → List PutCall × PtlmResult
  | _, 0, _ => ([], .unmergeable)
  | attempt, _ + 1, [] => ([⟨addListenerUrl docId, times attempt⟩], .unmergeable)
  | attempt, budget + 1, r :: rs =>
    let call : PutCall := ⟨addListenerUrl docId, times attempt⟩
    match r with
    | .success => ([call], .ok docId)
    | .otherError => ([call], .unmergeable)
    | .conflict =>
      let rest := ptlmLoop docId times (attempt + 1) budget rs
      (call :: rest.1, rest.2)

/-- Total attempt budget of the conflict-merge loop, pinned by the tests. -/
def ptlmBudget : Nat := 20

/-- Modelled from the spec: `Uploader.payload_telemetry`.  Computes the
content address of the raw bytes, then runs the conflict-merge loop against
the given store responses, stamping attempt `i`'s body with time `times i`. -/
def payload_telemetry (raw : List Nat) (times : Nat → Nat)
    (responses : List PutResponse) : List PutCall × PtlmResult :=
  ptlmLoop (sha256hex (b64encode raw)) times 0 ptlmBudget responses

/-- Raw payload telemetry bytes used throughout the repository's tests
(`"asdf blah \x12 binar\x04\x00"`). -/
def testPayloadBytes : List Nat :=
  [97, 115, 100, 102, 32, 98, 108, 97, 104, 32, 18, 32,
   98, 105, 110, 97, 114, 4, 0]

/-! ### UKHAS frame extractor

Modelled from the spec: `habitat/uploader.py` (classes `Extractor`,
`UKHASExtractor`) is not part of the source tree; only the tests are.  The
model follows the state machine of spec §4.2, driven one byte at a time, with
the events (status strings, the `payload_telemetry` upload and the `data`
event) returned explicitly.  Two details are pinned by the tests rather than
the spec prose:

* the buffer bound fires when the buffer (including the leading `$$`) reaches
  1024 bytes (`test_gives_up_after_1k` feeds `"$$" + "a" * 1022`, a 1024-byte
  buffer, and expects `"giving up"`; §4.2's "exceeds 1024" is off by one,
  §8 scenario 4 agrees with the tests);
* TAB is counted as a garbage byte (`test_gives_up_after_16garbage` expects
  `"giving up"` after 17 TABs interleaved with printable text), so
  "printable" is ASCII 0x20–0x7E plus CR and LF, not TAB.

The buffer is stored in reverse order (newest byte first) so that a push is a
single cons; it is reversed when the sentence is emitted. -/

/-- Events an extractor emits back through the manager: a status string, the
`uploader.payload_telemetry(buffer)` call, or the `data` event with the
sentence and, when the best-effort parse succeeded, the callsign and fields. -/
inductive ExtEvent
  | status (msg : String)
  | upload (sentence : String)
  | data (sentence : String) (parsed : Option (String × List String))
deriving Repr, DecidableEq

/-- Printable byte as pinned by the tests: ASCII 0x20–0x7E, CR or LF
(TAB counts as garbage). -/
def printable (c : Char) : Bool :=
  (32 ≤ c.toNat && c.toNat ≤ 126) || c = '\r' || c = '\n'

/-- XOR checksum of a character list, as used by two-digit UKHAS checksums. -/
def xorChecksum (cs : List Char) : Nat :=
  cs.foldl (fun acc c => acc ^^^ (c.toNat % 256)) 0

/-- One step of CRC16-CCITT on a single byte. -/
def crc16Byte (crc : Nat) (c : Char) : Nat :=
  let step := fun (x : Nat) =>
    if x &&& 0x8000 ≠ 0 then ((x <<< 1) ^^^ 0x1021) &&& 0xFFFF
    else (x <<< 1) &&& 0xFFFF
  step (step (step (step (step (step (step (step
    (crc ^^^ ((c.toNat % 256) <<< 8)))))))))

/-- CRC16-CCITT checksum (initial value 0xFFFF), as used by four-digit UKHAS
checksums. -/
def crc16Checksum (cs : List Char) : Nat :=
  cs.foldl crc16Byte 0xFFFF

/-- Uppercase hexadecimal digit. -/
def hexDigitUpper (n : Nat) : Char :=
  if n < 10 then Char.ofNat (48 + n) else Char.ofNat (55 + (n - 10))

/-- Uppercase hexadecimal rendering of `n` with `digits` digits. -/
def hexUpper (digits n : Nat) : List Char :=
  (List.range digits).reverse.map (fun i => hexDigitUpper ((n >>> (4 * i)) &&& 15))

/-- Embedded Python `split` with a single-character separator (structural, so
that it reduces inside the kernel, unlike `String.splitOn`). -/
def splitOnChar (sep : Char) : List Char → List (List Char)
  | [] => [[]]
  | c :: cs =>
    match splitOnChar sep cs with
    | [] => [[c]]
    | h :: t => if c = sep then [] :: h :: t else (c :: h) :: t

/-- Embedded Python `s.split(sep)` for a one-character separator, on
strings. -/
def pySplitChar (sep : Char) (s : String) : List String :=
  (splitOnChar sep s.toList).map String.mk

/-- Modelled from the spec: the best-effort parse of a UKHAS sentence
`$$CALLSIGN,field,...*CHECKSUM\n`.  The checksum (two-digit XOR or four-digit
CRC16-CCITT over the characters between `$$` and `*`, compared
case-insensitively) must verify; the tests expect `"parse failed"` for the
unchecked sentences they feed, so a parse without checksum verification would
not match them. -/
def crudeParse (sentence : String) : Option (String × List String) :=
  let cs := sentence.toList
  if cs.take 2 = ['$', '$'] ∧ cs.getLast? = some '\n' then
    let body := (cs.drop 2).dropLast
    match splitOnChar '*' body with
    | [payload, checksum] =>
      let okSum : Bool :=
        if checksum.length = 2 then
          hexUpper 2 (xorChecksum payload) == checksum.map Char.toUpper
        else if checksum.length = 4 then
          hexUpper 4 (crc16Checksum payload) == checksum.map Char.toUpper
        else false
      if okSum then
        match splitOnChar ',' payload with
        | callsign :: f :: fields =>
          some (String.mk callsign, (f :: fields).map String.mk)
        | _ => none
      else none
    | _ => none
  else none

/-- Extractor state: the previous byte (for `$$` detection), whether a
sentence is being collected, the buffer in reverse order with its length, and
the garbage and skipped counters of the current sentence. -/
structure ExtState where
  last : Option Char
  extracting : Bool
  rbuffer : List Char
  bufLen : Nat
  garbage : Nat
  skipCount : Nat
deriving Repr, DecidableEq

/-- Initial extractor state (IDLE). -/
def initExt : ExtState := ⟨none, false, [], 0, 0, 0⟩

/-- Events emitted after a complete sentence has been uploaded: on parse
success the `data` event with the fields, on failure the `"parse failed"`
status and the `data` event with the bare sentence. -/
def parseEvents (sentence : String) : List ExtEvent :=
  match crudeParse sentence with
  | some parsed => [.data sentence (some parsed)]
  | none => [.status "parse failed", .data sentence none]

/-- Modelled from the spec: `UKHASExtractor.push`, one byte.  A second
consecutive `$` (re)starts a sentence; inside a sentence the byte is buffered,
`\n` emits the sentence, and the garbage counter (> 16) or the buffer bound
(1024 bytes) abandons it with `"giving up"`. -/
def push (s : ExtState) (b : Char) : ExtState × List ExtEvent :=
  if s.last = some '$' ∧ b = '$' then
    (⟨some b, true, ['$', '$'], 2, 0, 0⟩, [.status "start delim"])
  else if s.extracting then
    let rbuf := b :: s.rbuffer
    let len := s.bufLen + 1
    if b = '\n' then
      let sentence := String.mk rbuf.reverse
      (⟨some b, false, rbuf, len, s.garbage, s.skipCount⟩,
       .upload sentence :: .status "extracted" :: parseEvents sentence)
    else
      let g := if printable b then s.garbage else s.garbage + 1
      if 16 < g ∨ 1024 ≤ len then
        (⟨some b, false, rbuf, len, g, s.skipCount⟩, [.status "giving up"])
      else
        (⟨some b, true, rbuf, len, g, s.skipCount⟩, [])
  else
    (⟨some b, s.extracting, s.rbuffer, s.bufLen, s.garbage, s.skipCount⟩, [])

/-- Modelled from the spec: `UKHASExtractor.skipped`.  Inside a sentence, `n`
undecoded bytes are buffered as NUL placeholders and counted; a total above
16 (or the buffer bound) abandons the sentence.  Outside a sentence it is
ignored. -/
def skipped (s : ExtState) (n : Nat) : ExtState × List ExtEvent :=
  if s.extracting then
    let rbuf := List.replicate n (Char.ofNat 0) ++ s.rbuffer
    let len := s.bufLen + n
    let sk := s.skipCount + n
    if 16 < sk ∨ 1024 ≤ len then
      (⟨some (Char.ofNat 0), false, rbuf, len, s.garbage, sk⟩,
       [.status "giving up"])
    else
      (⟨some (Char.ofNat 0), true, rbuf, len, s.garbage, sk⟩, [])
  else (s, [])

/-- Tail-recursive worker for `runPush`, accumulating the emitted events in
reverse (keeping kernel reduction of long runs shallow). -/
def runPushAux : ExtState → List Char → List ExtEvent → ExtState × List ExtEvent
  | s, [], acc => (s, acc.reverse)
  | s, c :: cs, acc =>
    match push s c with
    | (s1, evs) => runPushAux s1 cs (evs.reverseAux acc)

/-- Push a whole character list through the extractor, collecting the emitted
events in order. -/
def runPush (s : ExtState) (cs : List Char) : ExtState × List ExtEvent :=
  runPushAux s cs []

/-! ### Uploader worker

Modelled from the spec: `habitat/uploader.py` (class `UploaderThread`) is not
part of the source tree; only the tests are.  Spec §4.5 and §5 fix a strictly
FIFO, single-consumer queue, so the worker is embedded as a fold over the list
of enqueued commands: enqueueing itself never fails, and all failures surface
as `caught_exception` events.  The worker holds at most one `Uploader`,
identified here by its callsign; `settings` replaces it, `reset` drops it, and
an upload or query command executed with no uploader configured fails with
`"Uploader settings were not initialised"` through the hook. -/

/-- Commands a caller can enqueue on the worker. -/
inductive WorkerCmd
  | settings (callsign : String)
  | reset
  | listener_telemetry (data : String)
  | listener_information (data : String)
  | ptlm (data : String)
  | flights
  | payloads
deriving Repr, DecidableEq

/-- Observable effects of the worker thread: an `Uploader` method invoked on
the uploader with the given callsign, or the `caught_exception` hook firing
with the current exception's message. -/
inductive WorkerEvent
  | invoked (method : String) (callsign : String) (data : String)
  | caughtException (msg : String)
deriving Repr, DecidableEq

/-- Upload commands: the three enqueue-a-call operations of spec §4.5. -/
def isUploadCmd : WorkerCmd → Bool
  | .listener_telemetry _ => true
  | .listener_information _ => true
  | .ptlm _ => true
  | _ => false

/-- Error message of an upload or query executed before `settings`. -/
def notInitialisedMsg : String := "Uploader settings were not initialised"

/-- Execute one dequeued command against the current uploader (`none` when
unconfigured), returning the new uploader and the events it caused. -/
def workerStep (u : Option String) : WorkerCmd → Option String × List WorkerEvent
  | .settings c => (some c, [])
  | .reset => (none, [])
  | .listener_telemetry d => match u with
    | some c => (u, [.invoked "listener_telemetry" c d])
    | none => (none, [.caughtException notInitialisedMsg])
  | .listener_information d => match u with
    | some c => (u, [.invoked "listener_information" c d])
    | none => (none, [.caughtException notInitialisedMsg])
  | .ptlm d => match u with
    | some c => (u, [.invoked "payload_telemetry" c d])
    | none => (none, [.caughtException notInitialisedMsg])
  | .flights => match u with
    | some c => (u, [.invoked "flights" c ""])
    | none => (none, [.caughtException notInitialisedMsg])
  | .payloads => match u with
    | some c => (u, [.invoked "payloads" c ""])
    | none => (none, [.caughtException notInitialisedMsg])

/-- Run the worker over a command queue in FIFO order, collecting events. -/
def runWorker : Option String → List WorkerCmd → Option String × List WorkerEvent
  | u, [] => (u, [])
  | u, c :: cs =>
    let r1 := workerStep u c
    let r2 := runWorker r1.1 cs
    (r2.1, r1.2 ++ r2.2)

/-! ### Sensor parser: `coordinate` (from `habitat/sensors/stdtelem.py`)

Python floats are embedded as a sign bit paired with a non-negative exact
rational (the sign bit keeps `float("-00") = -0.0` and `math.copysign`
faithful); the decimal strings the function accepts are exactly
representable, and the rounding the claims exercise is far from any tie, so
exact rational arithmetic agrees with IEEE double arithmetic on them.
`float(...)` is embedded for plain decimal literals (optional sign, digits,
optional fraction), the only shapes a coordinate field can take; anything
else fails like `float` does, with `ValueError`. -/

/-- Python exception values observable from the embedded functions. -/
inductive PyErr
  | valueError (msg : String)
  | typeError
  | keyError
  | indexError
  | unauthorized (msg : String)
  | forbidden (msg : String)
  | validationError (errors : List String)
deriving Repr, DecidableEq

/-- Value of a decimal digit, if `c` is one. -/
def digitVal (c : Char) : Option Nat :=
  if 48 ≤ c.toNat ∧ c.toNat ≤ 57 then some (c.toNat - 48) else none

/-- Decimal digit list to `Nat` (most significant first); `none` when a
character is not a digit. -/
def digitsToNat : List Char → Option Nat
  | [] => some 0
  | c :: cs => do
    let d ← digitVal c
    let rest ← digitsToNat cs
    pure (d * 10 ^ cs.length + rest)

/-!
Exact rational arithmetic is written below through `mkRat` and the
numerator/denominator projections (the type-class `Rat` operations are opaque
to the kernel, and concrete runs of these functions must evaluate inside it).
-/

/-- Negation of a rational. -/
def qNeg (a : ℚ) : ℚ := mkRat (-a.num) a.den

/-- Addition of rationals. -/
def qAdd (a b : ℚ) : ℚ :=
  mkRat (a.num * (b.den : Int) + b.num * (a.den : Int)) (a.den * b.den)

/-- Division of a rational by a positive natural number. -/
def qDivNat (a : ℚ) (n : Nat) : ℚ := mkRat a.num (a.den * n)

/-- Multiplication of a rational by a natural number. -/
def qMulNat (a : ℚ) (n : Nat) : ℚ := mkRat (a.num * (n : Int)) a.den

/-- Unsigned decimal literal to an exact rational: digits with at most one
point and at least one digit overall. -/
def parseUFloat (cs : List Char) : Option ℚ :=
  let ip := cs.takeWhile (fun c => c ≠ '.')
  match cs.dropWhile (fun c => c ≠ '.') with
  | [] =>
    if ip = [] then none
    else (digitsToNat ip).map (fun n => mkRat (Int.ofNat n) 1)
  | _ :: fp =>
    if ip = [] ∧ fp = [] then none
    else do
      let ipN ← digitsToNat ip
      let fpN ← digitsToNat fp
      pure (mkRat (Int.ofNat (ipN * 10 ^ fp.length + fpN)) (10 ^ fp.length))

/-- Embedded `float(s)`: a sign bit (true = negative, keeping `-0.0`) and a
non-negative magnitude, or the `ValueError` that `float` raises. -/
def parseFloat (s : String) : Except PyErr (Bool × ℚ) :=
  let fail : Except PyErr (Bool × ℚ) :=
    .error (.valueError ("could not convert string to float: " ++ s))
  match s.toList with
  | '-' :: rest => match parseUFloat rest with
    | some q => .ok (true, q)
    | none => fail
  | '+' :: rest => match parseUFloat rest with
    | some q => .ok (false, q)
    | none => fail
  | cs => match parseUFloat cs with
    | some q => .ok (false, q)
    | none => fail

/-- Numeric value of an embedded float. -/
def floatVal (p : Bool × ℚ) : ℚ := if p.1 then qNeg p.2 else p.2

/-- Floor of a rational as an integer (the denominator is positive, so
floor division of numerator by denominator is the mathematical floor). -/
def ratFloor (x : ℚ) : ℤ := Int.fdiv x.num (x.den : ℤ)

/-- Round-half-even to an integer, the rounding of Python's `round`. -/
def roundHalfEven (x : ℚ) : ℤ :=
  let f := ratFloor x
  let r := mkRat (x.num - f * (x.den : Int)) x.den
  if r < mkRat 1 2 then f
  else if mkRat 1 2 < r then f + 1
  else if f % 2 = 0 then f else f + 1

/-- Embedded `round(x, dp)`: round-half-even at `dp` decimal places. -/
def roundTo (x : ℚ) (dp : Nat) : ℚ :=
  mkRat (roundHalfEven (qMulNat x (10 ^ dp))) (10 ^ dp)

/-- Sensor configuration record: `config["format"]` and `config["name"]`,
each possibly absent. -/
structure CoordConfig where
  format : Option String
  name : Option String
deriving Repr, DecidableEq

/-- Embedded `s[-1]`: last character, `IndexError` on the empty string. -/
def pyLast (s : String) : Except PyErr Char :=
  match s.toList.getLast? with
  | some c => .ok c
  | none => .error .indexError

/-- Embedded `s[0]`: first character, `IndexError` on the empty string. -/
def pyFirst (s : String) : Except PyErr Char :=
  match s.toList.head? with
  | some c => .ok c
  | none => .error .indexError

/-- Range check at the end of `coordinate`: latitude in [−90, 90], anything
else in [−180, 180]. -/
def rangeCheck (config : CoordConfig) (coord : ℚ) : Except PyErr ℚ :=
  if config.name = some "latitude" then
    if mkRat (-90) 1 ≤ coord ∧ coord ≤ mkRat 90 1 then .ok coord
    else .error (.valueError "Coordinate out of range (-90 <= x <= 90)")
  else
    if mkRat (-180) 1 ≤ coord ∧ coord ≤ mkRat 180 1 then .ok coord
    else .error (.valueError "Coordinate out of range (-180 <= x <= 180)")

/-- Embedded `stdtelem.coordinate`.  Mirrors the source line by line: format
lookup, `format.split(".")` two-way unpack, the short-circuit branch tests on
`left[-1]`, `right[-1]`, `left[0]`, the decimal-degree branch `float(data)`,
the degree-minute branch (split `data` on `.`, degrees from all but the last
two integer digits, minutes from the last two plus the fraction, reject
minutes strictly above 60, add `copysign(minutes/60, degrees)`, round to
`len(second) + 3` places), and the final range check. -/
def coordinate (config : CoordConfig) (data : String) : Except PyErr ℚ := do
  match config.format with
  | none => .error (.valueError "Coordinate format missing")
  | some fmt =>
    match pySplitChar '.' fmt with
    | [left, right] => do
      let lLast ← pyLast left
      let cond1 ← if lLast == 'd' then do
          let rLast ← pyLast right
          pure (rLast == 'd')
        else pure false
      if cond1 then do
        let v ← parseFloat data
        rangeCheck config (floatVal v)
      else do
        let lFirst ← pyFirst left
        let cond2 ← if lFirst == 'd' && lLast == 'm' then do
            let rLast ← pyLast right
            pure (rLast == 'm')
          else pure false
        if cond2 then
          match pySplitChar '.' data with
          | [first, second] => do
            let degrees ← parseFloat (String.mk (first.toList.take (first.length - 2)))
            let minutesF ← parseFloat
              (String.mk (first.toList.drop (first.length - 2) ++ '.' :: second.toList))
            let minutes := floatVal minutesF
            if mkRat 60 1 < minutes then
              .error (.valueError "Minutes component > 60.")
            else
              let mToD := qDivNat minutes 60
              let degreesV :=
                qAdd (floatVal degrees) (if degrees.1 then qNeg mToD else mToD)
              rangeCheck config (roundTo degreesV (second.length + 3))
          | _ => .error (.valueError "not enough values to unpack")
        else .error (.valueError "Invalid coordinate format")
    | _ => .error (.valueError "not enough values to unpack")

/-! ### View utilities (from `habitat/views/utils.py`)

Python values reaching `must_be_admin` are embedded as a small dynamic type:
`None`, strings, integers, lists and string-keyed mappings, which covers every
shape a CouchDB `userctx` (or a malformed stand-in) can take here.  The
`in` operator and subscripting follow Python semantics, including the
`TypeError`/`KeyError` they raise on unsuitable operands. -/

/-- Dynamic Python value. -/
inductive PyVal
  | pynone
  | str (s : String)
  | int (n : Int)
  | list (xs : List PyVal)
  | dict (kvs : List (String × PyVal))

/-- Embedded subscript `v["key"]`: a mapping looks the key up (`KeyError` when
absent), strings and lists reject a string index, `None` and integers are not
subscriptable (`TypeError`). -/
def pySubscript (v : PyVal) (key : String) : Except PyErr PyVal :=
  match v with
  | .dict kvs => match kvs.lookup key with
    | some x => .ok x
    | none => .error .keyError
  | _ => .error .typeError

/-- Contiguous-sublist test (Python's `in` on strings). -/
def charsInfix (needle : List Char) : List Char → Bool
  | [] => needle.isEmpty
  | c :: cs => List.isPrefixOf needle (c :: cs) || charsInfix needle cs

/-- Python `==` against a string literal: true exactly on the equal string
(values of other types are never equal to a string). -/
def pyEqStr (needle : String) : PyVal → Bool
  | .str s => s == needle
  | _ => false

/-- Embedded `"needle" in v`: substring test on strings, elementwise `==` on
lists, key membership on mappings, `TypeError` on `None` and integers. -/
def pyContains (needle : String) : PyVal → Except PyErr Bool
  | .str s => .ok (charsInfix needle.toList s.toList)
  | .list xs => .ok (xs.any (pyEqStr needle))
  | .dict kvs => .ok ((kvs.map Prod.fst).contains needle)
  | _ => .error .typeError

/-- Message of the `Unauthorized` error raised by `must_be_admin`. -/
def onlyAdminsMsg : String := "Only administrators may edit this document."

/-- Embedded `utils.must_be_admin`: inside the `try` block, look up
`user['roles']` and test `'admin' not in` it, raising `Unauthorized` when the
test is true; a `KeyError` or `TypeError` from the block is converted to the
same `Unauthorized`. -/
def must_be_admin (user : PyVal) : Except PyErr Unit :=
  let tryBlock : Except PyErr Unit :=
    match pySubscript user "roles" with
    | .error e => .error e
    | .ok roles =>
      match pyContains "admin" roles with
      | .error e => .error e
      | .ok isIn =>
        if isIn then .ok () else .error (.unauthorized onlyAdminsMsg)
  match tryBlock with
  | .error .keyError => .error (.unauthorized onlyAdminsMsg)
  | .error .typeError => .error (.unauthorized onlyAdminsMsg)
  | r => r

/-- The condition under which `must_be_admin` accepts: the user is a mapping
whose `roles` entry contains `'admin'` in the Python `in` sense. -/
def hasAdminRole (user : PyVal) : Bool :=
  match user with
  | .dict kvs =>
    match kvs.lookup "roles" with
    | some v =>
      match pyContains "admin" v with
      | .ok b => b
      | .error _ => false
    | none => false
  | _ => false

/-- Embedded `jsonschema.validate(data, schema, stop_on_error=False)`: the
validator itself is an external library, abstracted by the list of error
messages it collects for the given document, raising `ValidationError`
carrying them all when there are any. -/
def jsonschemaValidate (errs : List String) : Except PyErr Unit :=
  if errs = [] then .ok () else .error (.validationError errs)

/-- Lexicographic code-point comparison of character lists: the order Python
uses to compare strings. -/
def charListLe : List Char → List Char → Bool
  | [], _ => true
  | _ :: _, [] => false
  | a :: as, b :: bs =>
    if a.toNat < b.toNat then true
    else if b.toNat < a.toNat then false
    else charListLe as bs

/-- Python's `<=` on strings: lexicographic on code points. -/
def pyStrLe (a b : String) : Bool := charListLe a.toList b.toList

/-- Embedded `sorted` on strings: ascending lexicographic insertion sort
(equal sort keys are identical strings here, so stability is immaterial). -/
def pySorted (xs : List String) : List String :=
  List.insertionSort (fun a b => pyStrLe a b = true) xs

/-- Character-level worker for `pyJoin`. -/
def pyJoinChars (sep : List Char) : List String → List Char
  | [] => []
  | [x] => x.toList
  | x :: y :: rest => x.toList ++ sep ++ pyJoinChars sep (y :: rest)

/-- Embedded `sep.join(xs)` on strings. -/
def pyJoin (sep : String) (xs : List String) : String :=
  String.mk (pyJoinChars sep.toList xs)

/-- Embedded `utils.validate_doc`, abstracted over the error messages the
external schema validator collects: on a `ValidationError` it raises
`Forbidden` with `", ".join(["Validation errors: "] + sorted(e.errors))`. -/
def validate_doc (errs : List String) : Except PyErr Unit :=
  match jsonschemaValidate errs with
  | .error (.validationError es) =>
    .error (.forbidden (pyJoin ", " ("Validation errors: " :: pySorted es)))
  | r => r

/-! ### Helper instances and lemmas -/

instance {ε α : Type} [DecidableEq ε] [DecidableEq α] : DecidableEq (Except ε α) :=
  fun a b =>
    match a, b with
    | .ok x, .ok y =>
      decidable_of_iff (x = y) ⟨fun h => by rw [h], fun h => by injection h⟩
    | .error e, .error f =>
      decidable_of_iff (e = f) ⟨fun h => by rw [h], fun h => by injection h⟩
    | .ok _, .error _ => isFalse (fun h => Except.noConfusion h)
    | .error _, .ok _ => isFalse (fun h => Except.noConfusion h)

/-- Whatever responses it sees, the conflict-merge loop only ever reports the
document id it was given. -/
theorem ptlmLoop_ok_eq (docId : String) (times : Nat → Nat) :
    ∀ (budget attempt : Nat) (rs : List PutResponse) (calls : List PutCall)
      (id : String),
      ptlmLoop docId times attempt budget rs = (calls, .ok id) → id = docId := by
  intro budget
  induction budget with
  | zero => intro attempt rs calls id h; simp [ptlmLoop] at h
  | succ b ih =>
    intro attempt rs calls id h
    match rs with
    | [] => simp [ptlmLoop] at h
    | r :: rest =>
      cases r with
      | success =>
        simp only [ptlmLoop] at h
        exact (Prod.mk.injEq _ _ _ _ ▸ h).2 |> fun h2 => by
          injection h2 with h3; exact h3.symm
      | conflict =>
        simp only [ptlmLoop] at h
        have h2 := (Prod.mk.injEq _ _ _ _ ▸ h).2
        exact ih (attempt + 1) rest _ id (by
          rw [Prod.ext_iff]; exact ⟨rfl, h2⟩)
      | otherError => simp [ptlmLoop] at h

/-- Every PUT the conflict-merge loop issues goes to the `add_listener`
update handler at the document id it was given. -/
theorem ptlmLoop_urls (docId : String) (times : Nat → Nat) :
    ∀ (budget attempt : Nat) (rs : List PutResponse),
      ∀ c ∈ (ptlmLoop docId times attempt budget rs).1,
        c.url = addListenerUrl docId := by
  intro budget
  induction budget with
  | zero => intro attempt rs c hc; simp [ptlmLoop] at hc
  | succ b ih =>
    intro attempt rs c hc
    match rs with
    | [] =>
      simp only [ptlmLoop, List.mem_singleton] at hc
      rw [hc]
    | r :: rest =>
      cases r with
      | success =>
        simp only [ptlmLoop, List.mem_singleton] at hc
        rw [hc]
      | otherError =>
        simp only [ptlmLoop, List.mem_singleton] at hc
        rw [hc]
      | conflict =>
        simp only [ptlmLoop, List.mem_cons] at hc
        cases hc with
        | inl h => rw [h]
        | inr h => exact ih (attempt + 1) rest c h

/-- Peeling the first attempt off a range of successive PUT calls. -/
theorem callsRange_shift (docId : String) (times : Nat → Nat) (attempt k : Nat) :
    (List.range (k + 1)).map
        (fun i => (⟨addListenerUrl docId, times (attempt + i)⟩ : PutCall)) =
      ⟨addListenerUrl docId, times attempt⟩ ::
        (List.range k).map
          (fun i => (⟨addListenerUrl docId, times (attempt + 1 + i)⟩ : PutCall)) := by
  rw [List.range_succ_eq_map, List.map_cons, List.map_map]
  refine List.cons_eq_cons.mpr ⟨rfl, ?_⟩
  apply List.map_congr_left
  intro i _
  have h : attempt + Nat.succ i = attempt + 1 + i := by omega
  simp [Function.comp, h]

/-- Running the loop against `k` conflicts followed by a success, within
budget, issues `k + 1` PUTs with the successive refreshed times and returns
the document id. -/
theorem ptlmLoop_conflicts_success (docId : String) (times : Nat → Nat) :
    ∀ (k attempt budget : Nat) (rest : List PutResponse), k < budget →
      ptlmLoop docId times attempt budget
          (List.replicate k .conflict ++ .success :: rest) =
        ((List.range (k + 1)).map
          (fun i => ⟨addListenerUrl docId, times (attempt + i)⟩), .ok docId) := by
  intro k
  induction k with
  | zero =>
    intro attempt budget rest hb
    match budget, hb with
    | b + 1, _ =>
      simp [ptlmLoop, List.range_succ]
  | succ k ih =>
    intro attempt budget rest hb
    match budget, hb with
    | b + 1, hb' =>
      have hkb : k < b := Nat.lt_of_succ_lt_succ hb'
      have hrec := ih (attempt + 1) b rest hkb
      rw [List.replicate_succ, List.cons_append]
      simp only [ptlmLoop, List.append_eq]
      rw [hrec, callsRange_shift docId times attempt (k + 1)]

/-- Running the loop against `k` conflicts followed by a non-conflict error,
within budget, issues `k + 1` PUTs and gives up unmergeable. -/
theorem ptlmLoop_conflicts_error (docId : String) (times : Nat → Nat) :
    ∀ (k attempt budget : Nat) (rest : List PutResponse), k < budget →
      ptlmLoop docId times attempt budget
          (List.replicate k .conflict ++ .otherError :: rest) =
        ((List.range (k + 1)).map
          (fun i => ⟨addListenerUrl docId, times (attempt + i)⟩),
         .unmergeable) := by
  intro k
  induction k with
  | zero =>
    intro attempt budget rest hb
    match budget, hb with
    | b + 1, _ =>
      simp [ptlmLoop, List.range_succ]
  | succ k ih =>
    intro attempt budget rest hb
    match budget, hb with
    | b + 1, hb' =>
      have hkb : k < b := Nat.lt_of_succ_lt_succ hb'
      have hrec := ih (attempt + 1) b rest hkb
      rw [List.replicate_succ, List.cons_append]
      simp only [ptlmLoop, List.append_eq]
      rw [hrec, callsRange_shift docId times attempt (k + 1)]

/-- Running the loop against conflicts only exhausts the whole budget: it
issues one PUT per allowed attempt and gives up unmergeable. -/
theorem ptlmLoop_all_conflicts (docId : String) (times : Nat → Nat) :
    ∀ (budget attempt : Nat) (rest : List PutResponse),
      ptlmLoop docId times attempt budget
          (List.replicate budget .conflict ++ rest) =
        ((List.range budget).map
          (fun i => ⟨addListenerUrl docId, times (attempt + i)⟩),
         .unmergeable) := by
  intro budget
  induction budget with
  | zero => intro attempt rest; simp [ptlmLoop]
  | succ b ih =>
    intro attempt rest
    have hrec := ih (attempt + 1) rest
    rw [List.replicate_succ, List.cons_append]
    simp only [ptlmLoop, List.append_eq]
    rw [hrec, callsRange_shift docId times attempt b]

/-- Totality of the code-point comparison. -/
theorem charListLe_total : ∀ a b : List Char,
    charListLe a b = true ∨ charListLe b a = true := by
  intro a
  induction a with
  | nil => intro b; left; rfl
  | cons x xs ih =>
    intro b
    cases b with
    | nil => right; rfl
    | cons y ys =>
      by_cases hxy : x.toNat < y.toNat
      · left; simp [charListLe, hxy]
      · by_cases hyx : y.toNat < x.toNat
        · right; simp [charListLe, hyx]
        · cases ih ys with
          | inl h => left; simp [charListLe, hxy, hyx, h]
          | inr h => right; simp [charListLe, hxy, hyx, h]

/-- Transitivity of the code-point comparison. -/
theorem charListLe_trans : ∀ a b c : List Char,
    charListLe a b = true → charListLe b c = true → charListLe a c = true := by
  intro a
  induction a with
  | nil => intro b c _ _; rfl
  | cons x xs ih =>
    intro b c hab hbc
    cases b with
    | nil => simp [charListLe] at hab
    | cons y ys =>
      cases c with
      | nil => simp [charListLe] at hbc
      | cons z zs =>
        simp only [charListLe] at hab hbc ⊢
        by_cases hxy : x.toNat < y.toNat
        · by_cases hyz : y.toNat < z.toNat
          · simp [show x.toNat < z.toNat by omega]
          · by_cases hzy : z.toNat < y.toNat
            · simp [hyz, hzy] at hbc
            · simp [show x.toNat < z.toNat by omega]
        · by_cases hyx : y.toNat < x.toNat
          · simp [hxy, hyx] at hab
          · by_cases hyz : y.toNat < z.toNat
            · simp [show x.toNat < z.toNat by omega]
            · by_cases hzy : z.toNat < y.toNat
              · simp [hyz, hzy] at hbc
              · have h1 : ¬ x.toNat < z.toNat := by omega
                have h2 : ¬ z.toNat < x.toNat := by omega
                simp [hxy, hyx] at hab
                simp [hyz, hzy] at hbc
                simp only [h1, h2, if_false]
                exact ih ys zs hab hbc

instance : IsTotal String (fun a b => pyStrLe a b = true) :=
  ⟨fun a b => charListLe_total a.toList b.toList⟩

instance : IsTrans String (fun a b => pyStrLe a b = true) :=
  ⟨fun a b c => charListLe_trans a.toList b.toList c.toList⟩

/-- A command that is not `settings` leaves an unconfigured worker
unconfigured. -/
theorem workerStep_none_state (c : WorkerCmd) (h : ∀ x, c ≠ WorkerCmd.settings x) :
    (workerStep none c).1 = none := by
  cases c with
  | settings x => exact absurd rfl (h x)
  | _ => rfl

/-- A worker that starts unconfigured and sees no `settings` command stays
unconfigured. -/
theorem runWorker_none_state (cs : List WorkerCmd)
    (h : ∀ x, WorkerCmd.settings x ∉ cs) : (runWorker none cs).1 = none := by
  induction cs with
  | nil => rfl
  | cons c rest ih =>
    have hc : ∀ x, c ≠ WorkerCmd.settings x := by
      intro x hx
      exact h x (by rw [← hx]; exact List.mem_cons_self c rest)
    have hrest : ∀ x, WorkerCmd.settings x ∉ rest := by
      intro x hx
      exact h x (List.mem_cons_of_mem c hx)
    show (runWorker (workerStep none c).1 rest).1 = none
    rw [workerStep_none_state c hc]
    exact ih hrest

/-- Events of a worker run split across a queue concatenation; the second
part starts from the state the first part ends in. -/
theorem runWorker_append (u : Option String) (xs ys : List WorkerCmd) :
    runWorker u (xs ++ ys) =
      ((runWorker (runWorker u xs).1 ys).1,
       (runWorker u xs).2 ++ (runWorker (runWorker u xs).1 ys).2) := by
  induction xs generalizing u with
  | nil => simp [runWorker]
  | cons c rest ih =>
    simp only [List.cons_append, runWorker, List.append_eq]
    rw [ih (workerStep u c).1]
    simp [List.append_assoc]

/-- An upload command executed while the worker is unconfigured produces
exactly the `caught_exception` event with the not-initialised message. -/
theorem workerStep_none_upload (c : WorkerCmd) (h : isUploadCmd c = true) :
    workerStep none c = (none, [.caughtException notInitialisedMsg]) := by
  cases c with
  | listener_telemetry d => rfl
  | listener_information d => rfl
  | ptlm d => rfl
  | _ => simp [isUploadCmd] at h

/-! ### Claims -/

set_option maxRecDepth 4000000

/-- Document id the tests expect for `testPayloadBytes`: the SHA-256 of its
base64 encoding. -/
def testDocId : String :=
  "cf4511bba32c4273a13d8f2e39501a969ec664a4dc5c67bc556b514410087309"

/-- SHA-256 of `testPayloadBytes` themselves (not of their base64 encoding). -/
def testRawDigest : String :=
  "f757619b708dc7b3f14c613a4dd7513e672f6b1e1f06b1b0e2de548a6500f587"

/-- C1 (counterexample): on the raw bytes the repository's own tests use, a
successful `payload_telemetry` returns the id `cf4511bb…` — the SHA-256 of the
**base64 encoding** of the bytes — while the SHA-256 of the raw bytes
themselves is the different digest `f757619b…`, so the returned id is not the
SHA-256 digest of `b` as the claim states. -/
theorem c1_doc_id_not_sha256_of_raw :
    (payload_telemetry testPayloadBytes (fun _ => 1300001234) [.success]).2 =
      .ok testDocId ∧
    sha256hex testPayloadBytes = testRawDigest ∧
    testDocId ≠ testRawDigest := by
  exact ⟨by decide, by decide, by decide⟩

/-- C1 (amended): for every raw byte string `b`, a successful
`payload_telemetry(b, metadata)` returns a document id equal to the lowercase
hexadecimal SHA-256 digest of the **base64 encoding** of `b`, and issues every
PUT to the `add_listener` update handler at exactly that id. -/
theorem c1_doc_id_sha256_of_base64 (raw : List Nat) (times : Nat → Nat)
    (responses : List PutResponse) (calls : List PutCall) (id : String)
    (h : payload_telemetry raw times responses = (calls, .ok id)) :
    id = sha256hex (b64encode raw) ∧
    ∀ c ∈ calls, c.url = addListenerUrl (sha256hex (b64encode raw)) := by
  unfold payload_telemetry at h
  refine ⟨ptlmLoop_ok_eq _ times ptlmBudget 0 responses calls id h, ?_⟩
  intro c hc
  have hcalls : (ptlmLoop (sha256hex (b64encode raw)) times 0 ptlmBudget
      responses).1 = calls := by rw [h]
  exact ptlmLoop_urls (sha256hex (b64encode raw)) times ptlmBudget 0 responses c
    (hcalls ▸ hc)

/-- C1 (witness): the amended theorem applied to the tests' concrete bytes
with a single successful PUT. -/
theorem c1_witness :
    testDocId = sha256hex (b64encode testPayloadBytes) ∧
    ∀ c ∈ [(⟨addListenerUrl testDocId, 1300001234⟩ : PutCall)],
      c.url = addListenerUrl (sha256hex (b64encode testPayloadBytes)) :=
  c1_doc_id_sha256_of_base64 testPayloadBytes (fun _ => 1300001234) [.success]
    [⟨addListenerUrl testDocId, 1300001234⟩] testDocId (by decide)

/-- C2 (counterexample): faced with 15 conflicts and then a success,
`payload_telemetry` does not give up after 15 attempts as the claim states: it
issues a 16th PUT and returns the content-address id. -/
theorem c2_fifteen_conflicts_not_fatal :
    (payload_telemetry testPayloadBytes (fun i => 1300001234 + i)
        (List.replicate 15 .conflict ++ [.success])).2 = .ok testDocId ∧
    (payload_telemetry testPayloadBytes (fun i => 1300001234 + i)
        (List.replicate 15 .conflict ++ [.success])).1.length = 16 := by
  exact ⟨by decide, by decide⟩

/-- C2 (amended): `payload_telemetry` retries only on document conflicts,
each retry rebuilding the body with the refreshed `time_uploaded` of its
attempt; a run of `k ≤ 19` conflicts followed by a success returns the
content-address id after `k + 1` PUTs, and the operation gives up as
unmergeable after 20 attempts total (1 initial + up to 19 retries). -/
theorem c2_retry_budget_twenty :
    (∀ (raw : List Nat) (times : Nat → Nat) (k : Nat)
       (rest : List PutResponse), k ≤ 19 →
      payload_telemetry raw times
          (List.replicate k .conflict ++ .success :: rest) =
        ((List.range (k + 1)).map
          (fun i => ⟨addListenerUrl (sha256hex (b64encode raw)), times i⟩),
         .ok (sha256hex (b64encode raw)))) ∧
    (∀ (raw : List Nat) (times : Nat → Nat) (rest : List PutResponse),
      payload_telemetry raw times (List.replicate 20 .conflict ++ rest) =
        ((List.range 20).map
          (fun i => ⟨addListenerUrl (sha256hex (b64encode raw)), times i⟩),
         .unmergeable)) := by
  constructor
  · intro raw times k rest hk
    unfold payload_telemetry
    have hk' : k < ptlmBudget := by simp only [ptlmBudget]; omega
    rw [ptlmLoop_conflicts_success (sha256hex (b64encode raw)) times k 0
      ptlmBudget rest hk']
    congr 1
    apply List.map_congr_left
    intro i _
    simp
  · intro raw times rest
    unfold payload_telemetry
    have h20 : (20 : Nat) = ptlmBudget := rfl
    rw [h20, ptlmLoop_all_conflicts (sha256hex (b64encode raw)) times
      ptlmBudget 0 rest]
    refine congrArg (fun l => (l, PtlmResult.unmergeable)) ?_
    apply List.map_congr_left
    intro i _
    simp

/-- C2 (witness): one conflict then a success — two PUTs with successive
refreshed times, returning the content-address id. -/
theorem c2_witness :
    payload_telemetry testPayloadBytes (fun i => 1300001234 + i)
        (List.replicate 1 .conflict ++ .success :: []) =
      ([⟨addListenerUrl testDocId, 1300001234⟩,
        ⟨addListenerUrl testDocId, 1300001235⟩], .ok testDocId) := by
  have h := c2_retry_budget_twenty.1 testPayloadBytes (fun i => 1300001234 + i)
    1 [] (by omega)
  exact h.trans (by decide)

/-- C7: a non-conflict error on a PUT (after any `k ≤ 19` conflicts) makes
`payload_telemetry` give up as unmergeable immediately, with no PUT after the
failing one. -/
theorem c7_nonconflict_error_no_retry (raw : List Nat) (times : Nat → Nat)
    (k : Nat) (rest : List PutResponse) (hk : k ≤ 19) :
    payload_telemetry raw times
        (List.replicate k .conflict ++ .otherError :: rest) =
      ((List.range (k + 1)).map
        (fun i => ⟨addListenerUrl (sha256hex (b64encode raw)), times i⟩),
       .unmergeable) := by
  unfold payload_telemetry
  have hk' : k < ptlmBudget := by simp only [ptlmBudget]; omega
  rw [ptlmLoop_conflicts_error (sha256hex (b64encode raw)) times k 0
    ptlmBudget rest hk']
  congr 1
  apply List.map_congr_left
  intro i _
  simp

/-- C7 (witness): an authorization-style failure on the very first PUT —
exactly one PUT is issued and the operation is unmergeable. -/
theorem c7_witness :
    payload_telemetry testPayloadBytes (fun i => 1300001234 + i)
        [.otherError] =
      ([⟨addListenerUrl testDocId, 1300001234⟩], .unmergeable) := by
  have h := c7_nonconflict_error_no_retry testPayloadBytes
    (fun i => 1300001234 + i) 0 [] (by omega)
  exact h.trans (by decide)

/-- C3: fed `"$$"` followed by 1022 printable bytes (a 1024-byte buffer
including the leading `"$$"`), the extractor emits exactly `"start delim"`
then `"giving up"`; the subsequent `"\n"` emits nothing at all (in particular
no `payload_telemetry` upload); and a later complete `"$$…\n"` sentence is
extracted normally (upload, `"extracted"`, and the best-effort parse
events). -/
theorem c3_gives_up_at_1024 :
    (runPush initExt ("$$".toList ++ List.replicate 1022 'a')).2 =
      [.status "start delim", .status "giving up"] ∧
    (push (runPush initExt ("$$".toList ++ List.replicate 1022 'a')).1 '\n').2 =
      [] ∧
    (runPush
        (push (runPush initExt ("$$".toList ++ List.replicate 1022 'a')).1 '\n').1
        "$$a,simple,test*00\n".toList).2 =
      [.status "start delim", .upload "$$a,simple,test*00\n",
       .status "extracted", .status "parse failed",
       .data "$$a,simple,test*00\n" none] := by
  exact ⟨by decide, by decide, by decide⟩

/-- C4 (counterexample): a sentence interleaved with TAB bytes and printable
text IS abandoned on garbage grounds — after `"$$some,legit,data"` and 17
repetitions of `"\t some printable data"` the extractor has emitted exactly
`"start delim"` and `"giving up"`, because TAB counts towards the garbage
counter. -/
theorem c4_tab_counts_as_garbage :
    (runPush initExt ("$$some,legit,data".toList ++
        (List.replicate 17 "\t some printable data".toList).flatten)).2 =
      [.status "start delim", .status "giving up"] := by decide

/-- C4 (amended): in IN_SENTENCE (no restart, not the terminating newline,
buffer bound not reached) a byte increments the garbage counter if and only
if it is non-printable, where printable means ASCII 0x20–0x7E plus CR and LF
— TAB counts as garbage — and the `"giving up"` status is emitted exactly
when the counter passes 16. -/
theorem c4_garbage_iff_nonprintable (s : ExtState) (b : Char)
    (hextr : s.extracting = true)
    (hres : ¬(s.last = some '$' ∧ b = '$'))
    (hnl : b ≠ '\n')
    (hlen : s.bufLen + 1 < 1024) :
    (push s b).1.garbage = s.garbage + (if printable b then 0 else 1) ∧
    (ExtEvent.status "giving up" ∈ (push s b).2 ↔
      16 < s.garbage + (if printable b then 0 else 1)) := by
  have hglen : ¬(1024 ≤ s.bufLen + 1) := by omega
  have hgeq : (if printable b then s.garbage else s.garbage + 1) =
      s.garbage + (if printable b then 0 else 1) := by
    cases hp : printable b <;> simp [hp]
  simp only [push]
  rw [if_neg hres, if_pos hextr, if_neg hnl]
  by_cases h16 : 16 < (if printable b then s.garbage else s.garbage + 1)
  · rw [if_pos (Or.inl h16)]
    refine ⟨hgeq, ?_⟩
    rw [← hgeq]
    simp [h16]
  · rw [if_neg (not_or.mpr ⟨h16, hglen⟩)]
    refine ⟨hgeq, ?_⟩
    rw [← hgeq]
    simp [h16]

/-- C4 (witness): with the garbage counter at 16, a TAB inside a sentence
increments it to 17 and triggers `"giving up"`. -/
theorem c4_witness :
    (push ⟨some 'a', true, ['$', '$'], 2, 16, 0⟩ '\t').1.garbage =
      16 + (if printable '\t' then 0 else 1) ∧
    (ExtEvent.status "giving up" ∈
        (push ⟨some 'a', true, ['$', '$'], 2, 16, 0⟩ '\t').2 ↔
      16 < 16 + (if printable '\t' then 0 else 1)) :=
  c4_garbage_iff_nonprintable ⟨some 'a', true, ['$', '$'], 2, 16, 0⟩ '\t'
    rfl (by decide) (by decide) (by decide)

/-- C5: for the degree-minute template `"ddmm.mmmm"`, `coordinate` splits the
data on `"."`, parses the last two integer digits together with everything
after the point as minutes, and (minutes not above 60, result in range)
returns degrees plus `copysign(minutes/60, degrees)` rounded to
`len(fractional_minutes) + 3` decimal places; and concretely
`coordinate({format:"dd.dddd"}, "51.5074") = 51.5074` (the second concrete
evaluation of the claim is the witness below). -/
theorem c5_coordinate_degree_minute :
    (∀ (data first second : String) (dsign msign : Bool × ℚ) (coord : ℚ),
      pySplitChar '.' data = [first, second] →
      parseFloat (String.mk (first.toList.take (first.length - 2))) =
        .ok dsign →
      parseFloat (String.mk (first.toList.drop (first.length - 2) ++
        '.' :: second.toList)) = .ok msign →
      ¬ mkRat 60 1 < floatVal msign →
      coord = roundTo
        (qAdd (floatVal dsign)
          (if dsign.1 then qNeg (qDivNat (floatVal msign) 60)
           else qDivNat (floatVal msign) 60)) (second.length + 3) →
      mkRat (-90) 1 ≤ coord → coord ≤ mkRat 90 1 →
      coordinate ⟨some "ddmm.mmmm", some "latitude"⟩ data = .ok coord) ∧
    coordinate ⟨some "dd.dddd", none⟩ "51.5074" = .ok (mkRat 515074 10000) := by
  constructor
  · intro data first second dsign msign coord hsplit hdeg hmin hlt hcoord hlo hhi
    subst hcoord
    simp only [coordinate,
      show pySplitChar '.' "ddmm.mmmm" = ["ddmm", "mmmm"] from rfl,
      show pyLast "ddmm" = .ok 'm' from rfl,
      show pyLast "mmmm" = .ok 'm' from rfl,
      show pyFirst "ddmm" = .ok 'd' from rfl,
      bind, Except.bind, pure, Except.pure,
      show ('m' == 'd') = false from rfl,
      show ('d' == 'd') = true from rfl,
      show ('m' == 'm') = true from rfl,
      Bool.and_true, Bool.true_and, Bool.false_eq_true,
      if_false, if_true, hsplit, hdeg, hmin]
    rw [if_neg hlt]
    simp only [rangeCheck]
    rw [if_pos trivial, if_pos (And.intro hlo hhi)]
  · decide

/-- C5 (witness): the degree-minute theorem applied to the claim's concrete
input, `coordinate({format:"ddmm.mmmm",name:"latitude"}, "5130.4440") =
51.5074` (rounded to 7 decimal places). -/
theorem c5_witness :
    coordinate ⟨some "ddmm.mmmm", some "latitude"⟩ "5130.4440" =
      .ok (mkRat 515074 10000) :=
  c5_coordinate_degree_minute.1 "5130.4440" "5130" "4440"
    (false, mkRat 51 1) (false, mkRat 30444 1000) (mkRat 515074 10000)
    (by decide) (by decide) (by decide) (by decide) (by decide)
    (by decide) (by decide)

/-- C6 (counterexample): a degree-minute input whose minutes component is
exactly 60.0 does not fail — the source only rejects minutes strictly above
60 — so `coordinate({format:"ddmm.mmmm",name:"latitude"}, "5160.0000")`
succeeds and returns 52.0. -/
theorem c6_minutes_exactly_60_accepted :
    coordinate ⟨some "ddmm.mmmm", some "latitude"⟩ "5160.0000" =
      .ok (mkRat 52 1) := by decide

/-- C6 (amended): a degree-minute input whose minutes component is strictly
greater than 60 fails with the single ValueError-kind parser failure
(message `"Minutes component > 60."`); a minutes component exactly equal to
60.0 is accepted. -/
theorem c6_minutes_above_60_valueerror (config : CoordConfig)
    (hfmt : config.format = some "ddmm.mmmm")
    (data first second : String) (dsign msign : Bool × ℚ)
    (hsplit : pySplitChar '.' data = [first, second])
    (hdeg : parseFloat (String.mk (first.toList.take (first.length - 2))) =
      .ok dsign)
    (hmin : parseFloat (String.mk (first.toList.drop (first.length - 2) ++
      '.' :: second.toList)) = .ok msign)
    (hgt : mkRat 60 1 < floatVal msign) :
    coordinate config data = .error (.valueError "Minutes component > 60.") := by
  simp only [coordinate, hfmt,
    show pySplitChar '.' "ddmm.mmmm" = ["ddmm", "mmmm"] from rfl,
    show pyLast "ddmm" = .ok 'm' from rfl,
    show pyLast "mmmm" = .ok 'm' from rfl,
    show pyFirst "ddmm" = .ok 'd' from rfl,
    bind, Except.bind, pure, Except.pure,
    show ('m' == 'd') = false from rfl,
    show ('d' == 'd') = true from rfl,
    show ('m' == 'm') = true from rfl,
    Bool.and_true, Bool.true_and, Bool.false_eq_true,
    if_false, if_true, hsplit, hdeg, hmin]
  rw [if_pos hgt]

/-- C6 (witness): the amended theorem at a concrete input with minutes 99. -/
theorem c6_witness :
    coordinate ⟨some "ddmm.mmmm", some "latitude"⟩ "5199.0000" =
      .error (.valueError "Minutes component > 60.") :=
  c6_minutes_above_60_valueerror ⟨some "ddmm.mmmm", some "latitude"⟩ rfl
    "5199.0000" "5199" "0000" (false, mkRat 51 1) (false, mkRat 99 1)
    (by decide) (by decide) (by decide) (by decide)

/-- C8: after `reset()`, an upload command executed before any further
`settings` command produces exactly the `caught_exception` event with message
`"Uploader settings were not initialised"` — the failure is surfaced through
the hook, and the enqueue itself (modelled by appending to the command queue)
never fails. -/
theorem c8_reset_unconfigured_error (u : Option String) (cs : List WorkerCmd)
    (hns : ∀ x, WorkerCmd.settings x ∉ cs) (c : WorkerCmd)
    (hc : isUploadCmd c = true) :
    (runWorker u (WorkerCmd.reset :: cs ++ [c])).2 =
      (runWorker u (WorkerCmd.reset :: cs)).2 ++
        [WorkerEvent.caughtException notInitialisedMsg] := by
  have hstate : (runWorker u (WorkerCmd.reset :: cs)).1 = none := by
    show (runWorker (workerStep u .reset).1 cs).1 = none
    exact runWorker_none_state cs hns
  have happ := runWorker_append u (WorkerCmd.reset :: cs) [c]
  rw [show WorkerCmd.reset :: cs ++ [c] = (WorkerCmd.reset :: cs) ++ [c]
    from rfl, happ, hstate]
  simp [runWorker, workerStep_none_upload c hc]

/-- C8 (witness): reset, then a `listener_telemetry` enqueue with no
intervening `settings` — the only event of the final command is the
`caught_exception` with the not-initialised message. -/
theorem c8_witness :
    (runWorker (some "CALL1")
        (WorkerCmd.reset :: [] ++ [WorkerCmd.listener_telemetry "blah"])).2 =
      (runWorker (some "CALL1") [WorkerCmd.reset]).2 ++
        [WorkerEvent.caughtException notInitialisedMsg] :=
  c8_reset_unconfigured_error (some "CALL1") []
    (fun _ => List.not_mem_nil _) (WorkerCmd.listener_telemetry "blah") rfl

/-- C9: `must_be_admin` returns normally exactly when the user is a mapping
whose `roles` entry contains `'admin'` (in the Python `in` sense), and on
every other argument — `None`, a mapping without `roles`, non-mapping values,
a `roles` value that is not a container — it raises `Unauthorized`: the
internal `KeyError`/`TypeError` never escapes. -/
theorem c9_must_be_admin (u : PyVal) :
    (must_be_admin u = .ok () ↔ hasAdminRole u = true) ∧
    (must_be_admin u = .ok () ∨
      must_be_admin u = .error (.unauthorized onlyAdminsMsg)) := by
  cases u with
  | dict kvs =>
    simp only [must_be_admin, pySubscript, hasAdminRole]
    cases hlk : kvs.lookup "roles" with
    | none => simp
    | some v =>
      cases v with
      | str s => by_cases h : charsInfix ['a', 'd', 'm', 'i', 'n'] s.data = true <;>
          simp [pyContains, h]
      | list xs => by_cases h : xs.any (pyEqStr "admin") <;>
          simp [pyContains, h]
      | dict kvs2 =>
        by_cases h : "admin" ∈ kvs2.map Prod.fst <;> simp [pyContains, h]
      | pynone => simp [pyContains]
      | int n => simp [pyContains]
  | pynone => simp [must_be_admin, pySubscript, hasAdminRole]
  | str s => simp [must_be_admin, pySubscript, hasAdminRole]
  | int n => simp [must_be_admin, pySubscript, hasAdminRole]
  | list xs => simp [must_be_admin, pySubscript, hasAdminRole]

/-- C10: `validate_doc` returns normally exactly when the schema validator
collected no errors; on any failure it raises `Forbidden` — never letting
`ValidationError` escape — whose message is `", "` joining
`"Validation errors: "` with the collected error messages in ascending
code-point order (`pySorted` is a permutation of the collected errors, sorted
under the Python string order `pyStrLe`). -/
theorem c10_validate_doc (errs : List String) :
    (validate_doc errs = .ok () ↔ errs = []) ∧
    (errs ≠ [] →
      validate_doc errs =
        .error (.forbidden
          (pyJoin ", " ("Validation errors: " :: pySorted errs)))) ∧
    (pySorted errs).Perm errs ∧
    (pySorted errs).Sorted (fun a b => pyStrLe a b = true) ∧
    ∀ es, validate_doc errs ≠ .error (.validationError es) := by
  refine ⟨?_, ?_, ?_, ?_, ?_⟩
  · by_cases h : errs = [] <;> simp [validate_doc, jsonschemaValidate, h]
  · intro h
    simp [validate_doc, jsonschemaValidate, h]
  · exact List.perm_insertionSort _ errs
  · exact List.sorted_insertionSort _ errs
  · intro es
    by_cases h : errs = [] <;> simp [validate_doc, jsonschemaValidate, h]

/-- C10 (witness): two unsorted error messages produce the `Forbidden` whose
message joins the header with the messages in sorted order. -/
theorem c10_witness :
    validate_doc ["b", "a"] =
      .error (.forbidden "Validation errors: , a, b") := by
  have h := (c10_validate_doc ["b", "a"]).2.1 (by decide)
  exact h.trans (by decide)

end Habitat
